import Mathlib

/-!
Verification development for the Unify VS Code extension's analysis engine
(`src/diagnostics/diagnostics.ts` and the provider modules).

The TypeScript code scans document text with JavaScript regular expressions,
resolves include/template references against the file system, and produces
VS Code diagnostics.  We embed that code shallowly:

* the file system becomes an explicit function `fs : String → Bool`
  (`fs.existsSync`) plus `content : String → Option String`
  (`fs.readFileSync`, `none` modelling a thrown read error);
* `path.join` is modelled as separator concatenation (no `..` segments occur
  in the embedded call sites), `path.extname`/`path.dirname`/`path.basename`
  follow Node's substring semantics on the last path component;
* the JavaScript regexes are embedded as sequences of `RPiece`s interpreted
  by an ordered backtracking matcher (`matchPieces`), which is exactly the
  leftmost-match, greedy-with-backtracking semantics JS uses for these
  patterns (all quantifiers in the source patterns range over single
  character classes);
* `vscode.Diagnostic` becomes the `Diag` structure; severities use the
  VS Code numeric encoding (0 = Error, 1 = Warning, 2 = Information) and
  `Diagnostic.code` strings are kept verbatim;
* the unbounded recursion of `checkCircularIncludes` is embedded with an
  explicit fuel parameter; `checkCircular_fuel_stable` shows any fuel ≥ 2
  computes the function the source computes.
-/

namespace Unify

/-! ## Character-level regex engine -/

/-- A single-character matcher: a literal character, a (possibly negated)
character class, or JavaScript `\s`. -/
inductive RChar where
  | lit (c : Char)
  | cls (cs : List Char) (neg : Bool)
  | ws
  deriving Repr, DecidableEq

/-- Does the single-character matcher accept `d`?  JS `\s` also accepts some
Unicode spaces; the embedded documents are ASCII, where this set is exact. -/
def RChar.matchesCh : RChar → Char → Bool
  | .lit c, d => decide (c = d)
  | .cls cs neg, d => if neg then decide (d ∉ cs) else decide (d ∈ cs)
  | .ws, d =>
      decide (d = ' ') || decide (d = '\t') || decide (d = '\n') ||
      decide (d = '\r') || decide (d = '\x0b') || decide (d = '\x0c')

/-- One piece of a regex: the source patterns are sequences of literal
strings, single characters, greedy `*`/`+` over a character class, a
capturing alternation of literal words, a capturing `(c+)` over a class,
and negative lookaheads. -/
inductive RPiece where
  | str (s : List Char)
  | tok (t : RChar)
  | star (t : RChar)
  | plus (t : RChar)
  | grpAlts (alts : List (List Char))
  | grpPlus (t : RChar)
  | nlaAlts (alts : List (List Char))
  | nlaContains (s : List Char)
  deriving Repr

/-- Strip `l` as a prefix of `s`, returning the remainder. -/
def stripPfx : List Char → List Char → Option (List Char)
  | [], s => some s
  | _ :: _, [] => none
  | c :: cs, d :: s => if c = d then stripPfx cs s else none

/-- `isPfx l s` is true iff `l` is a prefix of `s`. -/
def isPfx (l s : List Char) : Bool := (stripPfx l s).isSome

/-- Does `pat` occur as a contiguous substring of `s`? -/
def containsSub (pat : List Char) : List Char → Bool
  | [] => pat.isEmpty
  | c :: rest => isPfx pat (c :: rest) || containsSub pat rest

/-- Length of the maximal prefix of `s` all of whose characters match `t`
(the greedy first try of a `*`/`+` quantifier). -/
def runLen (t : RChar) : List Char → Nat
  | [] => 0
  | c :: rest => if t.matchesCh c then runLen t rest + 1 else 0

/-- Try `f k`, `f (k-1)`, …, `f 0` and return the first success:
greedy backtracking for `*`. -/
def firstSome {α : Type} (f : Nat → Option α) : Nat → Option α
  | 0 => f 0
  | k + 1 =>
    match f (k + 1) with
    | some r => some r
    | none => firstSome f k

/-- Try `f k`, `f (k-1)`, …, `f 1` and return the first success:
greedy backtracking for `+` (at least one repetition). -/
def firstSomePos {α : Type} (f : Nat → Option α) : Nat → Option α
  | 0 => none
  | k + 1 =>
    match f (k + 1) with
    | some r => some r
    | none => firstSomePos f k

/-- Try the branches of a capturing alternation of literal words, left to
right, backtracking into the continuation `next` (the match of the
remaining pieces). -/
def tryAlts (next : List Char → Option (Nat × List (List Char))) :
    List (List Char) → List Char → Option (Nat × List (List Char))
  | [], _ => none
  | a :: rest, s =>
    match stripPfx a s with
    | none => tryAlts next rest s
    | some s' =>
      match next s' with
      | none => tryAlts next rest s
      | some (n, caps) => some (a.length + n, a :: caps)

/-- Match a sequence of pieces at the head of `s`.  Returns the number of
characters consumed and the list of captured groups (in order).  This is
ordered backtracking: quantifiers are greedy and retry shorter lengths,
alternations try their branches left to right — the semantics a JS regex
engine applies to the embedded patterns. -/
def matchPieces : List RPiece → List Char → Option (Nat × List (List Char))
  | [], _ => some (0, [])
  | .str l :: ps, s =>
    match stripPfx l s with
    | none => none
    | some rest =>
      match matchPieces ps rest with
      | none => none
      | some (n, caps) => some (l.length + n, caps)
  | .tok t :: ps, s =>
    match s with
    | [] => none
    | c :: rest =>
      if t.matchesCh c then
        match matchPieces ps rest with
        | none => none
        | some (n, caps) => some (n + 1, caps)
      else none
  | .star t :: ps, s =>
    firstSome
      (fun k =>
        match matchPieces ps (s.drop k) with
        | none => none
        | some (n, caps) => some (k + n, caps))
      (runLen t s)
  | .plus t :: ps, s =>
    firstSomePos
      (fun k =>
        match matchPieces ps (s.drop k) with
        | none => none
        | some (n, caps) => some (k + n, caps))
      (runLen t s)
  | .grpAlts alts :: ps, s => tryAlts (matchPieces ps) alts s
  | .grpPlus t :: ps, s =>
    firstSomePos
      (fun k =>
        match matchPieces ps (s.drop k) with
        | none => none
        | some (n, caps) => some (k + n, s.take k :: caps))
      (runLen t s)
  | .nlaAlts alts :: ps, s =>
    if alts.any (fun a => isPfx a s) then none else matchPieces ps s
  | .nlaContains l :: ps, s =>
    if containsSub l s then none else matchPieces ps s

/-- A regex match: start index, length of the overall match, captures. -/
structure RMatch where
  start : Nat
  len : Nat
  caps : List (List Char)
  deriving Repr

/-- Find the leftmost match at or after the current position (`exec`):
try `matchPieces` at each successive start. -/
def findFromAux (ps : List RPiece) : List Char → Nat → Option RMatch
  | s, i =>
    match matchPieces ps s with
    | some (n, caps) => some ⟨i, n, caps⟩
    | none =>
      match s with
      | [] => none
      | _ :: rest => findFromAux ps rest (i + 1)

/-- First match of the pattern in `s` (JS `String.match` / one `exec`). -/
def firstMatch (ps : List RPiece) (s : List Char) : Option RMatch :=
  findFromAux ps s 0

/-- All matches of a `/g` pattern, advancing `lastIndex` past each match
(matches of the embedded patterns always have positive length). -/
def execAllAux (ps : List RPiece) (s : List Char) : Nat → Nat → List RMatch
  | _, 0 => []
  | i, fuel + 1 =>
    match findFromAux ps (s.drop i) i with
    | none => []
    | some m => m :: execAllAux ps s (m.start + max m.len 1) fuel

/-- All matches of a `/g` pattern in `s`, leftmost first, non-overlapping. -/
def execAll (ps : List RPiece) (s : List Char) : List RMatch :=
  execAllAux ps s 0 (s.length + 1)

/-! ## Node `path` helpers -/

/-- The substring after the last `/` (the component `path.extname` and
`path.basename` inspect). -/
def afterLastSlash (l : List Char) : List Char :=
  (l.reverse.takeWhile (fun c => decide (c ≠ '/'))).reverse

/-- `path.extname` on a single component: the substring from the last `.`,
empty when there is no dot or the only dot is the leading one. -/
def extOfComponent (b : List Char) : List Char :=
  let k := (b.reverse.takeWhile (fun c => decide (c ≠ '.'))).length
  if k = b.length then []
  else if b.length - 1 - k = 0 then []
  else b.drop (b.length - 1 - k)

/-- Node `path.extname`. -/
def extnameL (l : List Char) : List Char :=
  extOfComponent (afterLastSlash l)

/-- Node `path.basename` (for the paths the code builds, which have no
trailing separators). -/
def basename (s : String) : String :=
  String.mk (afterLastSlash s.toList)

/-- Node `path.dirname` (for the separator-joined paths the code builds). -/
def dirname (s : String) : String :=
  match s.toList.reverse.dropWhile (fun c => decide (c ≠ '/')) with
  | [] => "."
  | _ :: rest => if rest.isEmpty then "/" else String.mk rest.reverse

/-- Node `path.join` of two segments.  The embedded call sites never produce
`.` or `..` segments, so normalization is the identity on them. -/
def joinP (a b : String) : String := a ++ "/" ++ b

/-- Node `path.resolve(dir, p)` for the embedded call sites: `p` itself when
absolute, otherwise `dir/p`. -/
def resolveP (dir p : String) : String :=
  if p.toList.head? = some '/' then p else joinP dir p

/-! ## The source's regular expressions as piece sequences -/

/-- `/<!--#include\s+(virtual|file)="([^"]+)"\s*-->/g` — the include
directive scanner (`analyzeIncludes`, `checkCircularIncludes`). -/
def includePieces : List RPiece :=
  [.str "<!--#include".toList, .plus .ws,
   .grpAlts ["virtual".toList, "file".toList],
   .str "=\"".toList, .grpPlus (.cls ['"'] true), .str "\"".toList,
   .star .ws, .str "-->".toList]

/-- `/<template[^>]+extends=["']([^"']+)["'][^>]*>/g` — the template
`extends` scanner (`analyzeTemplates`, `findExtendedTemplate`). -/
def templateExtendsPieces : List RPiece :=
  [.str "<template".toList, .plus (.cls ['>'] true), .str "extends=".toList,
   .tok (.cls ['"', '\''] false), .grpPlus (.cls ['"', '\''] true),
   .tok (.cls ['"', '\''] false), .star (.cls ['>'] true), .tok (.lit '>')]

/-- `/<template[^>]+slot=["']([^"']+)["'][^>]*>/g` — slot usage in a child
document (`analyzeSlots`). -/
def slotUsagePieces : List RPiece :=
  [.str "<template".toList, .plus (.cls ['>'] true), .str "slot=".toList,
   .tok (.cls ['"', '\''] false), .grpPlus (.cls ['"', '\''] true),
   .tok (.cls ['"', '\''] false), .star (.cls ['>'] true), .tok (.lit '>')]

/-- `/<slot[^>]+name=["']([^"']+)["'][^>]*>/g` — slot declarations in a
parent template (`extractSlots`). -/
def slotNamePieces : List RPiece :=
  [.str "<slot".toList, .plus (.cls ['>'] true), .str "name=".toList,
   .tok (.cls ['"', '\''] false), .grpPlus (.cls ['"', '\''] true),
   .tok (.cls ['"', '\''] false), .star (.cls ['>'] true), .tok (.lit '>')]

/-- `/<!--#include\s+(?!virtual=|file=)/g` — the malformed-include check
(`analyzeSyntax`). -/
def malformedIncludePieces : List RPiece :=
  [.str "<!--#include".toList, .plus .ws,
   .nlaAlts ["virtual=".toList, "file=".toList]]

/-- `/<template[^>]*>(?!.*<\/template>)/g` — the unclosed-template check
(`analyzeSyntax`).  `.` does not cross line terminators and the pattern is
applied per line, so the lookahead is "the rest of the line does not
contain `</template>`". -/
def unclosedTemplatePieces : List RPiece :=
  [.str "<template".toList, .star (.cls ['>'] true), .tok (.lit '>'),
   .nlaContains "</template>".toList]

/-- `/<!--#include\s+(virtual|file)="([^"]*[<>|*?]+[^"]*)"/g` — the
invalid-path-characters check (`analyzeSyntax`).  The second capture is
never read by the code, so it is embedded without a capture. -/
def invalidCharsPieces : List RPiece :=
  [.str "<!--#include".toList, .plus .ws,
   .grpAlts ["virtual".toList, "file".toList],
   .str "=\"".toList, .star (.cls ['"'] true),
   .plus (.cls ['<', '>', '|', '*', '?'] false),
   .star (.cls ['"'] true), .str "\"".toList]

/-! ## Diagnostics data model -/

/-- A `vscode.Diagnostic` as the analyzer builds it: position, severity
(VS Code numeric encoding: 0 = Error, 1 = Warning, 2 = Information),
message, `code` string, and the optional related-information message. -/
structure Diag where
  line : Nat
  startChar : Nat
  endChar : Nat
  severity : Nat
  message : String
  code : String
  related : Option String := none
  deriving Repr, DecidableEq

/-- The two include directive kinds, `virtual="…"` and `file="…"`. -/
inductive IncType where
  | virtual
  | file
  deriving Repr, DecidableEq

/-- Result of `resolveIncludePath`: `{ exists, expectedPath, circular }`. -/
structure ResolvedInclude where
  exists_ : Bool
  expectedPath : String
  circular : Bool
  deriving Repr, DecidableEq

/-! ## `UnifyDiagnostics` embedded

All functions are parameterized by the ambient state the TypeScript reads
on demand: `fs` (`fs.existsSync`), `content` (`fs.readFileSync`, `none` for
a thrown error), `src` (the `unify.sourceDirectory` setting, default
`"src"`), `root` (the workspace root path). -/

/-- `checkCircularIncludes(currentFile, targetFile, visited)`, with explicit
fuel for the unbounded recursion.  Note the source keeps `currentFile`
fixed through the recursion and clones `visited` per descent (cloning is
the identity under immutable lists). -/
def checkCircular (fs : String → Bool) (content : String → Option String)
    (src root : String) :
    Nat → String → String → List String → Bool
  | 0, _, _, _ => false
  | fuel + 1, currentFile, targetFile, visited =>
    if currentFile ∈ visited then true
    else if currentFile = targetFile then true
    else
      let visited' := currentFile :: visited
      match content targetFile with
      | none => false
      | some text =>
        (execAll includePieces text.toList).any fun m =>
          match m.caps with
          | [tyCap, ipCap] =>
            let includePath := String.mk ipCap
            let nextPath :=
              if tyCap = "virtual".toList then joinP (joinP root src) includePath
              else resolveP (dirname targetFile) includePath
            fs nextPath &&
              checkCircular fs content src root fuel currentFile nextPath visited'
          | _ => false

/-- The candidate extensions tried by `resolveIncludePath`, in source
order. -/
def candidateExtensions : List String := [".html", ".htm", ".md"]

/-- The extension-retry loop of `resolveIncludePath`: first existing
`resolvedPath + ext` wins; none existing leaves `resolvedPath` itself. -/
def tryExtsLoop (fs : String → Bool) (resolvedPath : String) :
    List String → Bool × String
  | [] => (false, resolvedPath)
  | ext :: rest =>
    let pathWithExt := resolvedPath ++ ext
    if fs pathWithExt then (true, pathWithExt) else tryExtsLoop fs resolvedPath rest

/-- The raw resolved path of an include reference before extension retry:
`path.join(workspaceRoot, sourceDir, includePath)` for `virtual`,
`path.resolve(path.dirname(document.fileName), includePath)` for `file`. -/
def rawResolvedPath (src root fileName : String) :
    IncType → String → String
  | .virtual, includePath => joinP (joinP root src) includePath
  | .file, includePath => resolveP (dirname fileName) includePath

/-- `resolveIncludePath(document, type, includePath, workspaceRoot)`:
resolve against `root/src` (virtual) or the document's directory (file),
retry with the candidate extensions, then run the circular check when the
file exists. -/
def resolveIncludePath (fs : String → Bool) (content : String → Option String)
    (fuel : Nat) (src root fileName : String)
    (ty : IncType) (includePath : String) : ResolvedInclude :=
  let resolvedPath := rawResolvedPath src root fileName ty includePath
  let exFinal :=
    if fs resolvedPath then (true, resolvedPath)
    else tryExtsLoop fs resolvedPath candidateExtensions
  let circ :=
    if exFinal.1 then checkCircular fs content src root fuel fileName exFinal.2 []
    else false
  { exists_ := exFinal.1, expectedPath := exFinal.2, circular := circ }

/-- `createIncludeFileSuggestion(expectedPath)`. -/
def createIncludeFileSuggestion (fs : String → Bool) (expectedPath : String) :
    String :=
  if fs (dirname expectedPath) then
    "Create missing include file: " ++ basename expectedPath
  else
    "Create directory and include file: " ++ expectedPath

/-- Decode the first capture of the include regex (`virtual` or `file`). -/
def decodeIncType (tyCap : List Char) : IncType :=
  if tyCap = "virtual".toList then .virtual else .file

/-- The body of the `analyzeIncludes` match loop for one regex match on line
`i`: a missing-include error, a circular-include error, or nothing. -/
def includeMatchDiags (fs : String → Bool) (content : String → Option String)
    (fuel : Nat) (src root fileName : String) (i : Nat) (m : RMatch) :
    List Diag :=
  match m.caps with
  | [tyCap, ipCap] =>
    let ty : IncType := decodeIncType tyCap
    let includePath := String.mk ipCap
    let r := resolveIncludePath fs content fuel src root fileName ty includePath
    if !r.exists_ then
      [{ line := i, startChar := m.start, endChar := m.start + m.len,
         severity := 0,
         message := "Include file not found: " ++ includePath,
         code := "include-not-found",
         related :=
           if r.expectedPath = "" then none
           else some (createIncludeFileSuggestion fs r.expectedPath) }]
    else if r.circular then
      [{ line := i, startChar := m.start, endChar := m.start + m.len,
         severity := 0,
         message := "Circular include dependency detected: " ++ includePath,
         code := "circular-include" }]
    else []
  | _ => []

/-- The per-line loop of `analyzeIncludes`, starting at line index `i`. -/
def analyzeIncludesAux (fs : String → Bool) (content : String → Option String)
    (fuel : Nat) (src root fileName : String) :
    Nat → List (List Char) → List Diag
  | _, [] => []
  | i, line :: rest =>
    ((execAll includePieces line).map
        (includeMatchDiags fs content fuel src root fileName i)).flatten ++
      analyzeIncludesAux fs content fuel src root fileName (i + 1) rest

/-- `analyzeIncludes(document, lines)`. -/
def analyzeIncludes (fs : String → Bool) (content : String → Option String)
    (fuel : Nat) (src root fileName : String) (lines : List (List Char)) :
    List Diag :=
  analyzeIncludesAux fs content fuel src root fileName 0 lines

/-- The candidate loop of `resolveTemplatePath`: append `.html` when the
candidate has no extension, first existing candidate wins. -/
def findTemplateLoop (fs : String → Bool) : List String → Option String
  | [] => none
  | possiblePath :: rest =>
    let testPath :=
      if (extnameL possiblePath.toList).isEmpty then possiblePath ++ ".html"
      else possiblePath
    if fs testPath then some testPath else findTemplateLoop fs rest

/-- `resolveTemplatePath(document, extendsPath, workspaceRoot)`: layouts,
then components, then the source directory itself. -/
def resolveTemplatePath (fs : String → Bool) (src root : String)
    (extendsPath : String) : Option String :=
  findTemplateLoop fs
    [joinP (joinP (joinP root src) "layouts") extendsPath,
     joinP (joinP (joinP root src) "components") extendsPath,
     joinP (joinP root src) extendsPath]

/-- The body of the `analyzeTemplates` match loop for one `extends` match
on line `i`: an error when the template does not resolve. -/
def templateMatchDiags (fs : String → Bool) (src root : String) (i : Nat)
    (m : RMatch) : List Diag :=
  match m.caps with
  | [cap] =>
    let extendsPath := String.mk cap
    match resolveTemplatePath fs src root extendsPath with
    | none =>
      [{ line := i, startChar := m.start, endChar := m.start + m.len,
         severity := 0,
         message := "Template not found: " ++ extendsPath,
         code := "template-not-found" }]
    | some _ => []
  | _ => []

/-- The per-line loop of `analyzeTemplates`, starting at line index `i`. -/
def analyzeTemplatesAux (fs : String → Bool) (src root : String) :
    Nat → List (List Char) → List Diag
  | _, [] => []
  | i, line :: rest =>
    ((execAll templateExtendsPieces line).map
        (templateMatchDiags fs src root i)).flatten ++
      analyzeTemplatesAux fs src root (i + 1) rest

/-- `analyzeTemplates(document, lines)`. -/
def analyzeTemplates (fs : String → Bool) (src root : String)
    (lines : List (List Char)) : List Diag :=
  analyzeTemplatesAux fs src root 0 lines

/-- Keep first occurrences: `[...new Set(slots)]`. -/
def dedupAux : List String → List String → List String
  | [], _ => []
  | s :: rest, seen =>
    if s ∈ seen then dedupAux rest seen else s :: dedupAux rest (s :: seen)

/-- Order-preserving de-duplication. -/
def dedup (l : List String) : List String := dedupAux l []

/-- `extractSlots(content)`: every `<slot … name="…">` declaration, first
occurrences kept in order. -/
def extractSlots (text : String) : List String :=
  dedup ((execAll slotNamePieces text.toList).map
    (fun m => String.mk (m.caps.getD 0 [])))

/-- `Array.join(', ')`. -/
def joinSep (sep : String) : List String → String
  | [] => ""
  | [s] => s
  | s :: rest => s ++ sep ++ joinSep sep rest

/-- `findExtendedTemplate(document)` of the diagnostics module: resolve the
first `extends` match of the whole document text. -/
def findExtendedTemplate (fs : String → Bool) (src root : String)
    (text : String) : Option String :=
  match firstMatch templateExtendsPieces text.toList with
  | none => none
  | some m =>
    match m.caps with
    | [cap] => resolveTemplatePath fs src root (String.mk cap)
    | _ => none

/-- A single-quote character as a string (used in the source's
undefined-slot message). -/
def squote : String := String.mk ['\'']

/-- The body of the `analyzeSlots` match loop for one `slot="…"` usage on
line `i`: a warning when the used name is not declared by the parent. -/
def slotMatchDiags (availableSlots : List String) (i : Nat) (m : RMatch) :
    List Diag :=
  match m.caps with
  | [cap] =>
    let slotName := String.mk cap
    if slotName ∈ availableSlots then []
    else
      [{ line := i, startChar := m.start, endChar := m.start + m.len,
         severity := 1,
         message := "Slot " ++ squote ++ slotName ++ squote ++
           " is not defined in the extended template",
         code := "undefined-slot",
         related :=
           if availableSlots.isEmpty then none
           else some ("Available slots: " ++ joinSep ", " availableSlots) }]
  | _ => []

/-- The per-line loop of `analyzeSlots`, starting at line index `i`. -/
def analyzeSlotsAux (availableSlots : List String) :
    Nat → List (List Char) → List Diag
  | _, [] => []
  | i, line :: rest =>
    ((execAll slotUsagePieces line).map (slotMatchDiags availableSlots i)).flatten
      ++ analyzeSlotsAux availableSlots (i + 1) rest

/-- `analyzeSlots(document, lines)`: find the extended template, read it,
extract its declared slots, then check every slot usage of the child. -/
def analyzeSlots (fs : String → Bool) (content : String → Option String)
    (src root : String) (text : String) (lines : List (List Char)) :
    List Diag :=
  match findExtendedTemplate fs src root text with
  | none => []
  | some tmpl =>
    match content tmpl with
    | none => []
    | some templateContent =>
      analyzeSlotsAux (extractSlots templateContent) 0 lines

/-- The three per-line checks of `analyzeSyntax`, in source push order:
malformed include, unclosed template, invalid path characters. -/
def syntaxLineDiags (i : Nat) (line : List Char) : List Diag :=
  (match firstMatch malformedIncludePieces line with
   | some m =>
     [{ line := i, startChar := m.start, endChar := m.start + m.len,
        severity := 0,
        message := "Malformed include directive. Use virtual=\"path\" or file=\"path\"",
        code := "malformed-include" }]
   | none => []) ++
  (match firstMatch unclosedTemplatePieces line with
   | some m =>
     [{ line := i, startChar := m.start, endChar := m.start + m.len,
        severity := 2,
        message := "Template tag may not be properly closed",
        code := "unclosed-template" }]
   | none => []) ++
  (match firstMatch invalidCharsPieces line with
   | some m =>
     [{ line := i, startChar := m.start, endChar := m.start + m.len,
        severity := 0,
        message := "Include path contains invalid characters",
        code := "invalid-path-chars" }]
   | none => [])

/-- The per-line loop of `analyzeSyntax`, starting at line index `i`. -/
def analyzeSyntaxAux : Nat → List (List Char) → List Diag
  | _, [] => []
  | i, line :: rest => syntaxLineDiags i line ++ analyzeSyntaxAux (i + 1) rest

/-- `analyzeSyntax(document, lines)`. -/
def analyzeSyntax (lines : List (List Char)) : List Diag :=
  analyzeSyntaxAux 0 lines

/-- `text.split('\n')`. -/
def splitOnNl : List Char → List (List Char)
  | [] => [[]]
  | c :: rest =>
    if c = '\n' then [] :: splitOnNl rest
    else
      match splitOnNl rest with
      | [] => [[c]]
      | l :: ls => (c :: l) :: ls

/-- `analyzeDocument(document)`: the four analysis stages concatenated in
source order — includes, templates, slots, syntax. -/
def analyzeDocument (fs : String → Bool) (content : String → Option String)
    (fuel : Nat) (src root fileName : String) (text : String) : List Diag :=
  let lines := splitOnNl text.toList
  analyzeIncludes fs content fuel src root fileName lines ++
    analyzeTemplates fs src root lines ++
    analyzeSlots fs content src root text lines ++
    analyzeSyntax lines

/-! ## Helper lemmas -/

/-- `List.any` only depends on the predicate's values on the list. -/
theorem anyCongr {α : Type} {f g : α → Bool} :
    ∀ (l : List α), (∀ a ∈ l, f a = g a) → l.any f = l.any g
  | [], _ => rfl
  | a :: l, h => by
    simp only [List.any_cons]
    rw [h a (List.mem_cons_self a l), anyCongr l (fun b hb => h b (List.mem_cons_of_mem a hb))]

/-- `takeWhile` never proceeds past an element the predicate rejects. -/
theorem takeWhileAppendStop {p : Char → Bool} {c : Char} (hc : p c = false) :
    ∀ (u w : List Char), (u ++ c :: w).takeWhile p = u.takeWhile p
  | [], w => by simp [List.takeWhile_cons, hc]
  | a :: u, w => by
    by_cases h : p a <;>
      simp [List.takeWhile_cons, h, takeWhileAppendStop hc u w]

/-- The component after the last `/` is untouched by prepending path
segments. -/
theorem afterLastSlash_append (xs ys : List Char) :
    afterLastSlash (xs ++ '/' :: ys) = afterLastSlash ys := by
  unfold afterLastSlash
  rw [List.reverse_append, List.reverse_cons, List.append_assoc,
    List.singleton_append,
    takeWhileAppendStop (by simp) ys.reverse xs.reverse]

/-- `path.extname (path.join a b)` only looks at `b` (the joined reference
keeps its own last component). -/
theorem extnameL_joinP (a b : String) :
    extnameL (joinP a b).toList = extnameL b.toList := by
  have h : (joinP a b).toList = a.toList ++ '/' :: b.toList := by
    show (a ++ "/" ++ b).data = a.data ++ '/' :: b.data
    rw [String.data_append, String.data_append, List.append_assoc]
    rfl
  rw [h]
  unfold extnameL
  rw [afterLastSlash_append]

/-- The candidate loop of `resolveTemplatePath` is `List.find?` over the
candidates with `.html` appended to extensionless ones. -/
theorem findTemplateLoop_eq_find (fs : String → Bool) :
    ∀ (l : List String),
      findTemplateLoop fs l =
        List.find? fs
          (l.map fun c =>
            if (extnameL c.toList).isEmpty then c ++ ".html" else c)
  | [] => rfl
  | a :: l => by
    simp only [findTemplateLoop, List.map]
    set t := if (extnameL a.toList).isEmpty then a ++ ".html" else a with ht
    cases h : fs t with
    | true => rw [List.find?_cons_of_pos _ h]; simp
    | false =>
      rw [List.find?_cons_of_neg _ (by simp [h]),
        ← findTemplateLoop_eq_find fs l]
      simp

/-! ## Per-stage membership facts -/

/-- Every finding the include loop produces on line `i` sits on line `i`
and is `include-not-found` or `circular-include`. -/
theorem includeMatchDiags_mem
    {fs : String → Bool} {content : String → Option String} {fuel : Nat}
    {src root fileName : String} {i : Nat} {m : RMatch} {d : Diag}
    (hd : d ∈ includeMatchDiags fs content fuel src root fileName i m) :
    d.line = i ∧
      (d.code = "include-not-found" ∨ d.code = "circular-include") := by
  unfold includeMatchDiags at hd
  simp only [] at hd
  repeat' split at hd
  all_goals
    first
      | exact absurd hd (List.not_mem_nil d)
      | (rw [List.mem_singleton] at hd; subst hd; simp)

/-- Every finding the template loop produces on line `i` sits on line `i`
and is `template-not-found`. -/
theorem templateMatchDiags_mem
    {fs : String → Bool} {src root : String} {i : Nat} {m : RMatch} {d : Diag}
    (hd : d ∈ templateMatchDiags fs src root i m) :
    d.line = i ∧ d.code = "template-not-found" := by
  unfold templateMatchDiags at hd
  simp only [] at hd
  repeat' split at hd
  all_goals
    first
      | exact absurd hd (List.not_mem_nil d)
      | (rw [List.mem_singleton] at hd; subst hd; simp)

/-- Every finding the slot loop produces on line `i` sits on line `i` and
is `undefined-slot`. -/
theorem slotMatchDiags_mem
    {availableSlots : List String} {i : Nat} {m : RMatch} {d : Diag}
    (hd : d ∈ slotMatchDiags availableSlots i m) :
    d.line = i ∧ d.code = "undefined-slot" := by
  unfold slotMatchDiags at hd
  simp only [] at hd
  repeat' split at hd
  all_goals
    first
      | exact absurd hd (List.not_mem_nil d)
      | (rw [List.mem_singleton] at hd; subst hd; simp)

/-- Every finding `analyzeSyntax` produces on line `i` sits on line `i` and
is one of its three kinds. -/
theorem syntaxLineDiags_mem {i : Nat} {line : List Char} {d : Diag}
    (hd : d ∈ syntaxLineDiags i line) :
    d.line = i ∧
      (d.code = "malformed-include" ∨ d.code = "unclosed-template" ∨
        d.code = "invalid-path-chars") := by
  unfold syntaxLineDiags at hd
  rcases List.mem_append.1 hd with h | h
  · rcases List.mem_append.1 h with h2 | h2
    · split at h2
      · rw [List.mem_singleton] at h2
        subst h2
        exact ⟨rfl, Or.inl rfl⟩
      · exact absurd h2 (List.not_mem_nil d)
    · split at h2
      · rw [List.mem_singleton] at h2
        subst h2
        exact ⟨rfl, Or.inr (Or.inl rfl)⟩
      · exact absurd h2 (List.not_mem_nil d)
  · split at h
    · rw [List.mem_singleton] at h
      subst h
      exact ⟨rfl, Or.inr (Or.inr rfl)⟩
    · exact absurd h (List.not_mem_nil d)

/-- Elements of a flattened map come from some list element. -/
theorem mem_flatten_map {α : Type} {g : α → List Diag} {l : List α} {d : Diag}
    (hd : d ∈ (l.map g).flatten) : ∃ a ∈ l, d ∈ g a := by
  simpa [List.mem_flatten, List.mem_map] using hd

/-- A per-line analysis loop (`aux i (line :: rest) = f i line ++ aux (i+1)
rest`) whose per-line findings sit on their own line produces findings with
lines bounded below by the start index and sorted in ascending line
order. -/
theorem perLineAux_props (f : Nat → List Char → List Diag)
    (aux : Nat → List (List Char) → List Diag)
    (hnil : ∀ i, aux i [] = [])
    (hcons : ∀ i l rest, aux i (l :: rest) = f i l ++ aux (i + 1) rest)
    (hline : ∀ i l d, d ∈ f i l → d.line = i) :
    ∀ (lines : List (List Char)) (i : Nat),
      (∀ d ∈ aux i lines, i ≤ d.line) ∧
        List.Pairwise (fun a b : Diag => a.line ≤ b.line) (aux i lines) := by
  intro lines
  induction lines with
  | nil => intro i; simp [hnil]
  | cons l rest ih =>
    intro i
    rw [hcons]
    constructor
    · intro d hd
      rcases List.mem_append.1 hd with h | h
      · exact le_of_eq (hline i l d h).symm
      · exact le_trans (Nat.le_succ i) ((ih (i + 1)).1 d h)
    · rw [List.pairwise_append]
      refine ⟨List.pairwise_of_forall_mem_list ?_, (ih (i + 1)).2, ?_⟩
      · intro a ha b hb
        rw [hline i l a ha, hline i l b hb]
      · intro a ha b hb
        rw [hline i l a ha]
        exact le_trans (Nat.le_succ i) ((ih (i + 1)).1 b hb)

/-- Properties of per-line findings lift to the whole per-line loop. -/
theorem perLineAux_mem (f : Nat → List Char → List Diag)
    (aux : Nat → List (List Char) → List Diag)
    (hnil : ∀ i, aux i [] = [])
    (hcons : ∀ i l rest, aux i (l :: rest) = f i l ++ aux (i + 1) rest)
    (P : Diag → Prop) (hP : ∀ i l d, d ∈ f i l → P d) :
    ∀ (lines : List (List Char)) (i : Nat) (d : Diag),
      d ∈ aux i lines → P d := by
  intro lines
  induction lines with
  | nil => intro i d hd; rw [hnil] at hd; exact absurd hd (List.not_mem_nil d)
  | cons l rest ih =>
    intro i d hd
    rw [hcons] at hd
    rcases List.mem_append.1 hd with h | h
    · exact hP i l d h
    · exact ih (i + 1) d h

/-- The `Diagnostic.code` values the analyzer can produce. -/
def allowedCodes : List String :=
  ["include-not-found", "circular-include", "template-not-found",
   "undefined-slot", "malformed-include", "unclosed-template",
   "invalid-path-chars"]

/-- Include-stage findings are line-ascending and bounded below by the
start line. -/
theorem analyzeIncludesAux_props (fs : String → Bool)
    (content : String → Option String) (fuel : Nat)
    (src root fileName : String) :
    ∀ (lines : List (List Char)) (i : Nat),
      (∀ d ∈ analyzeIncludesAux fs content fuel src root fileName i lines,
          i ≤ d.line) ∧
        List.Pairwise (fun a b : Diag => a.line ≤ b.line)
          (analyzeIncludesAux fs content fuel src root fileName i lines) :=
  perLineAux_props
    (fun i line =>
      ((execAll includePieces line).map
          (includeMatchDiags fs content fuel src root fileName i)).flatten)
    (analyzeIncludesAux fs content fuel src root fileName)
    (fun _ => rfl) (fun _ _ _ => rfl)
    (fun i l d hd => by
      obtain ⟨m, _, hm⟩ := mem_flatten_map hd
      exact (includeMatchDiags_mem hm).1)

/-- Include-stage findings carry one of the two include codes. -/
theorem analyzeIncludesAux_codes (fs : String → Bool)
    (content : String → Option String) (fuel : Nat)
    (src root fileName : String) :
    ∀ (lines : List (List Char)) (i : Nat) (d : Diag),
      d ∈ analyzeIncludesAux fs content fuel src root fileName i lines →
      d.code = "include-not-found" ∨ d.code = "circular-include" :=
  perLineAux_mem
    (fun i line =>
      ((execAll includePieces line).map
          (includeMatchDiags fs content fuel src root fileName i)).flatten)
    (analyzeIncludesAux fs content fuel src root fileName)
    (fun _ => rfl) (fun _ _ _ => rfl) _
    (fun i l d hd => by
      obtain ⟨m, _, hm⟩ := mem_flatten_map hd
      exact (includeMatchDiags_mem hm).2)

/-- Template-stage findings are line-ascending and bounded below. -/
theorem analyzeTemplatesAux_props (fs : String → Bool) (src root : String) :
    ∀ (lines : List (List Char)) (i : Nat),
      (∀ d ∈ analyzeTemplatesAux fs src root i lines, i ≤ d.line) ∧
        List.Pairwise (fun a b : Diag => a.line ≤ b.line)
          (analyzeTemplatesAux fs src root i lines) :=
  perLineAux_props
    (fun i line =>
      ((execAll templateExtendsPieces line).map
          (templateMatchDiags fs src root i)).flatten)
    (analyzeTemplatesAux fs src root)
    (fun _ => rfl) (fun _ _ _ => rfl)
    (fun i l d hd => by
      obtain ⟨m, _, hm⟩ := mem_flatten_map hd
      exact (templateMatchDiags_mem hm).1)

/-- Template-stage findings carry the `template-not-found` code. -/
theorem analyzeTemplatesAux_codes (fs : String → Bool) (src root : String) :
    ∀ (lines : List (List Char)) (i : Nat) (d : Diag),
      d ∈ analyzeTemplatesAux fs src root i lines →
      d.code = "template-not-found" :=
  perLineAux_mem
    (fun i line =>
      ((execAll templateExtendsPieces line).map
          (templateMatchDiags fs src root i)).flatten)
    (analyzeTemplatesAux fs src root)
    (fun _ => rfl) (fun _ _ _ => rfl) _
    (fun i l d hd => by
      obtain ⟨m, _, hm⟩ := mem_flatten_map hd
      exact (templateMatchDiags_mem hm).2)

/-- Slot-stage findings are line-ascending. -/
theorem analyzeSlots_pairwise (fs : String → Bool)
    (content : String → Option String) (src root text : String)
    (lines : List (List Char)) :
    List.Pairwise (fun a b : Diag => a.line ≤ b.line)
      (analyzeSlots fs content src root text lines) := by
  unfold analyzeSlots
  split
  · exact List.Pairwise.nil
  · split
    · exact List.Pairwise.nil
    · exact
        ((perLineAux_props
            (fun i line =>
              ((execAll slotUsagePieces line).map (slotMatchDiags _ i)).flatten)
            (analyzeSlotsAux _) (fun _ => rfl) (fun _ _ _ => rfl)
            (fun i l d hd => by
              obtain ⟨m, _, hm⟩ := mem_flatten_map hd
              exact (slotMatchDiags_mem hm).1) lines 0)).2

/-- Slot-stage findings carry the `undefined-slot` code. -/
theorem analyzeSlots_codes (fs : String → Bool)
    (content : String → Option String) (src root text : String)
    (lines : List (List Char)) (d : Diag)
    (hd : d ∈ analyzeSlots fs content src root text lines) :
    d.code = "undefined-slot" := by
  unfold analyzeSlots at hd
  split at hd
  · exact absurd hd (List.not_mem_nil d)
  · split at hd
    · exact absurd hd (List.not_mem_nil d)
    · exact
        perLineAux_mem
          (fun i line =>
            ((execAll slotUsagePieces line).map (slotMatchDiags _ i)).flatten)
          (analyzeSlotsAux _) (fun _ => rfl) (fun _ _ _ => rfl) _
          (fun i l e he => by
            obtain ⟨m, _, hm⟩ := mem_flatten_map he
            exact (slotMatchDiags_mem hm).2) lines 0 d hd

/-- Syntax-stage findings are line-ascending and bounded below. -/
theorem analyzeSyntaxAux_props :
    ∀ (lines : List (List Char)) (i : Nat),
      (∀ d ∈ analyzeSyntaxAux i lines, i ≤ d.line) ∧
        List.Pairwise (fun a b : Diag => a.line ≤ b.line)
          (analyzeSyntaxAux i lines) :=
  perLineAux_props syntaxLineDiags analyzeSyntaxAux
    (fun _ => rfl) (fun _ _ _ => rfl)
    (fun _ _ _ hd => (syntaxLineDiags_mem hd).1)

/-- Syntax-stage findings carry one of the three syntax codes. -/
theorem analyzeSyntaxAux_codes :
    ∀ (lines : List (List Char)) (i : Nat) (d : Diag),
      d ∈ analyzeSyntaxAux i lines →
      d.code = "malformed-include" ∨ d.code = "unclosed-template" ∨
        d.code = "invalid-path-chars" :=
  perLineAux_mem syntaxLineDiags analyzeSyntaxAux
    (fun _ => rfl) (fun _ _ _ => rfl) _
    (fun _ _ _ hd => (syntaxLineDiags_mem hd).2)

/-- Every finding `analyzeDocument` produces carries one of the seven
`Diagnostic.code` values the source ever constructs. -/
theorem analyzeDocument_codes (fs : String → Bool)
    (content : String → Option String) (fuel : Nat)
    (src root fileName text : String) :
    ∀ d ∈ analyzeDocument fs content fuel src root fileName text,
      d.code ∈ allowedCodes := by
  intro d hd
  unfold analyzeDocument at hd
  rcases List.mem_append.1 hd with h | h
  · rcases List.mem_append.1 h with h | h
    · rcases List.mem_append.1 h with h | h
      · rcases analyzeIncludesAux_codes fs content fuel src root fileName _ 0
            d h with h1 | h1 <;> simp [allowedCodes, h1]
      · have h1 := analyzeTemplatesAux_codes fs src root _ 0 d h
        simp [allowedCodes, h1]
    · have h1 := analyzeSlots_codes fs content src root text _ d h
      simp [allowedCodes, h1]
  · rcases analyzeSyntaxAux_codes _ 0 d h with h1 | h1 | h1 <;>
      simp [allowedCodes, h1]

/-! ## Claim C2 — include candidate order -/

/-- Modelled from the claim wording: the candidate list is the raw resolved
path first, followed by the raw path with each candidate extension appended
in the order `.html`, `.htm`, `.md`. -/
def claimIncludeCandidates (raw : String) : List String :=
  [raw, raw ++ ".html", raw ++ ".htm", raw ++ ".md"]

/-- Claim C2: for every include reference, the resolver's candidate order is
the raw resolved path followed by the raw path with `.html`, `.htm`, `.md`
appended, in that order: `exists` is true iff some candidate exists, and
the reported existing path is the first existing candidate (the raw path
when none exists) — so with both `a.html` and `a.md` present, `.html`
wins. -/
theorem c2_include_candidate_order
    (fs : String → Bool) (content : String → Option String) (fuel : Nat)
    (src root fileName : String) (ty : IncType) (includePath : String) :
    (resolveIncludePath fs content fuel src root fileName ty
          includePath).exists_ =
        (claimIncludeCandidates
          (rawResolvedPath src root fileName ty includePath)).any fs ∧
    (resolveIncludePath fs content fuel src root fileName ty
          includePath).expectedPath =
        ((claimIncludeCandidates
              (rawResolvedPath src root fileName ty includePath)).find?
            fs).getD
          (rawResolvedPath src root fileName ty includePath) := by
  set raw := rawResolvedPath src root fileName ty includePath with hraw
  cases h0 : fs raw <;> cases h1 : fs (raw ++ ".html") <;>
    cases h2 : fs (raw ++ ".htm") <;> cases h3 : fs (raw ++ ".md") <;>
      simp [resolveIncludePath, tryExtsLoop, candidateExtensions,
        claimIncludeCandidates, List.find?, h0, h1, h2, h3]

/-! ## Claim C5 — template search priority -/

/-- Modelled from the claim wording: the fixed priority order
`{root}/{src}/layouts/<ref>`, `{root}/{src}/components/<ref>`,
`{root}/{src}/<ref>`, each with `.html` appended when the reference has no
extension. -/
def claimTemplateCandidates (src root extendsPath : String) : List String :=
  [joinP (joinP (joinP root src) "layouts") extendsPath,
   joinP (joinP (joinP root src) "components") extendsPath,
   joinP (joinP root src) extendsPath].map
    fun cand =>
      if (extnameL extendsPath.toList).isEmpty then cand ++ ".html" else cand

/-- Claim C5: every `extends` reference is resolved by searching
`layouts`, then `components`, then the source directory, `.html` appended
to each candidate when the reference has no extension, first existing
candidate winning; when none exists the match is reported as
`template-not-found`. -/
theorem c5_template_priority_order :
    (∀ (fs : String → Bool) (src root ref : String),
        resolveTemplatePath fs src root ref =
          (claimTemplateCandidates src root ref).find? fs) ∧
    (∀ (fs : String → Bool) (src root : String) (i : Nat) (m : RMatch)
        (cap : List Char),
        m.caps = [cap] →
        resolveTemplatePath fs src root (String.mk cap) = none →
        (templateMatchDiags fs src root i m).map Diag.code =
          ["template-not-found"]) := by
  constructor
  · intro fs src root ref
    rw [resolveTemplatePath, findTemplateLoop_eq_find]
    unfold claimTemplateCandidates
    simp only [List.map]
    rw [extnameL_joinP, extnameL_joinP, extnameL_joinP]
  · intro fs src root i m cap hcaps hnone
    simp [templateMatchDiags, hcaps, hnone]

/-- Witness for C5: a reference that resolves nowhere is reported as
`template-not-found`. -/
theorem c5_template_priority_order_witness :
    resolveTemplatePath (fun _ => false) "src" "w" "nope.html" = none ∧
    (templateMatchDiags (fun _ => false) "src" "w" 0
          ⟨0, 30, ["nope.html".toList]⟩).map Diag.code =
      ["template-not-found"] :=
  ⟨by decide,
   c5_template_priority_order.2 (fun _ => false) "src" "w" 0
     ⟨0, 30, ["nope.html".toList]⟩ "nope.html".toList rfl (by decide)⟩

/-! ## Claim C4 — traversal only follows existing files -/

/-- The cycle traversal's result is independent of the contents of files
that do not exist: every `readFileSync` it performs targets a path whose
existence was checked (the initial target by `resolveIncludePath`, each
recursive target by the `existsSync` guard before the recursive call). -/
theorem checkCircular_content_congr
    (fs : String → Bool) (c c' : String → Option String) (src root : String)
    (h : ∀ q, fs q = true → c q = c' q) :
    ∀ (fuel : Nat) (cur tgt : String) (vis : List String),
      fs tgt = true →
      checkCircular fs c src root fuel cur tgt vis =
        checkCircular fs c' src root fuel cur tgt vis := by
  intro fuel
  induction fuel with
  | zero => intro cur tgt vis _; rfl
  | succ n ih =>
    intro cur tgt vis htgt
    simp only [checkCircular]
    by_cases hv : cur ∈ vis
    · simp [hv]
    · by_cases he : cur = tgt
      · simp [hv, he]
      · simp only [if_neg hv, if_neg he]
        rw [← h tgt htgt]
        cases hc : c tgt with
        | none => rfl
        | some text =>
          apply anyCongr
          intro m _
          rcases hcap : m.caps with _ | ⟨tyCap, _ | ⟨ipCap, _ | ⟨r, rest⟩⟩⟩ <;>
            simp only [hcap]
          have key : ∀ np : String,
              (fs np && checkCircular fs c src root n cur np (cur :: vis)) =
                (fs np && checkCircular fs c' src root n cur np (cur :: vis)) := by
            intro np
            cases h2 : fs np with
            | false => rfl
            | true => simp only [Bool.true_and]; exact ih cur np (cur :: vis) h2
          exact key _

/-- Claim C4: (1) an include whose reference resolves to no existing file is
never marked circular; (2) such an include produces exactly one
`include-not-found` finding, never a `circular-include` one; (3) the cycle
traversal never descends into a non-existing file — its result is
unchanged by altering the contents of non-existing files. -/
theorem c4_missing_never_cycle :
    (∀ (fs : String → Bool) (content : String → Option String) (fuel : Nat)
        (src root fileName : String) (ty : IncType) (p : String),
        (resolveIncludePath fs content fuel src root fileName ty p).exists_ =
          false →
        (resolveIncludePath fs content fuel src root fileName ty p).circular =
          false) ∧
    (∀ (fs : String → Bool) (content : String → Option String) (fuel : Nat)
        (src root fileName : String) (i : Nat) (m : RMatch)
        (tyCap ipCap : List Char),
        m.caps = [tyCap, ipCap] →
        (resolveIncludePath fs content fuel src root fileName
              (decodeIncType tyCap) (String.mk ipCap)).exists_ = false →
        (includeMatchDiags fs content fuel src root fileName i m).map
            Diag.code = ["include-not-found"]) ∧
    (∀ (fs : String → Bool) (c c' : String → Option String)
        (src root : String) (fuel : Nat) (cur tgt : String)
        (vis : List String),
        (∀ q, fs q = true → c q = c' q) → fs tgt = true →
        checkCircular fs c src root fuel cur tgt vis =
          checkCircular fs c' src root fuel cur tgt vis) := by
  refine ⟨?_, ?_, ?_⟩
  · intro fs content fuel src root fileName ty p h
    simp only [resolveIncludePath] at h ⊢
    simp [h]
  · intro fs content fuel src root fileName i m tyCap ipCap hcaps hex
    simp [includeMatchDiags, hcaps, hex]
  · intro fs c c' src root fuel cur tgt vis h htgt
    exact checkCircular_content_congr fs c c' src root h fuel cur tgt vis htgt

/-- Witness for C4: a missing include on an empty file system is reported
as missing and not circular, and the traversal over an existing file is
content-stable. -/
theorem c4_missing_never_cycle_witness :
    ((resolveIncludePath (fun _ => false) (fun _ => none) 1 "src" "w"
          "w/f.html" .virtual "x").exists_ = false ∧
      (resolveIncludePath (fun _ => false) (fun _ => none) 1 "src" "w"
          "w/f.html" .virtual "x").circular = false) ∧
    (includeMatchDiags (fun _ => false) (fun _ => none) 1 "src" "w"
          "w/f.html" 0 ⟨0, 33, ["virtual".toList, "x".toList]⟩).map
        Diag.code = ["include-not-found"] ∧
    checkCircular (fun p => decide (p = "t")) (fun _ => none) "src" "w" 3
        "a" "t" [] =
      checkCircular (fun p => decide (p = "t")) (fun _ => none) "src" "w" 3
        "a" "t" [] :=
  ⟨⟨by decide,
    c4_missing_never_cycle.1 (fun _ => false) (fun _ => none) 1 "src" "w"
      "w/f.html" .virtual "x" (by decide)⟩,
   c4_missing_never_cycle.2.1 (fun _ => false) (fun _ => none) 1 "src" "w"
     "w/f.html" 0 ⟨0, 33, ["virtual".toList, "x".toList]⟩ "virtual".toList
     "x".toList rfl (by decide),
   c4_missing_never_cycle.2.2 (fun p => decide (p = "t")) (fun _ => none)
     (fun _ => none) "src" "w" 3 "a" "t" [] (fun _ _ => rfl) (by decide)⟩

/-! ## Claim C9 — determinism / idempotence -/

/-- Claim C9: `analyzeDocument` is a pure function of the document text,
settings, workspace root and the file-system state; two runs over
extensionally equal file systems produce structurally identical finding
lists. -/
theorem c9_analysis_deterministic
    (fs fs' : String → Bool) (content content' : String → Option String)
    (fuel : Nat) (src root fileName text : String)
    (hfs : ∀ p, fs p = fs' p) (hc : ∀ p, content p = content' p) :
    analyzeDocument fs content fuel src root fileName text =
      analyzeDocument fs' content' fuel src root fileName text := by
  rw [funext hfs, funext hc]

/-- Witness for C9: two identical runs agree. -/
theorem c9_analysis_deterministic_witness :
    analyzeDocument (fun _ => false) (fun _ => none) 1 "src" "w"
        "w/src/a.html" "hello" =
      analyzeDocument (fun _ => false) (fun _ => none) 1 "src" "w"
        "w/src/a.html" "hello" :=
  c9_analysis_deterministic _ _ _ _ 1 "src" "w" "w/src/a.html" "hello"
    (fun _ => rfl) (fun _ => rfl)

/-! ## Claim C1 — diamond include graph -/

/-- The diamond file system: `a.html` includes `b.html` and `c.html`, both
of which include `d.html`; all four files exist under `w/src`. -/
def diamondFs : String → Bool := fun p =>
  decide (p = "w/src/a.html") || decide (p = "w/src/b.html") ||
    decide (p = "w/src/c.html") || decide (p = "w/src/d.html")

/-- The diamond file contents. -/
def diamondContent : String → Option String := fun p =>
  if p = "w/src/a.html" then
    some "<!--#include virtual=\"b.html\" -->\n<!--#include virtual=\"c.html\" -->"
  else if p = "w/src/b.html" then some "<!--#include virtual=\"d.html\" -->"
  else if p = "w/src/c.html" then some "<!--#include virtual=\"d.html\" -->"
  else if p = "w/src/d.html" then some "hello"
  else none

/-- Claim C1 (code bug): analyzing the top of an acyclic diamond include
graph DOES produce `circular-include` findings — one per include of `a` —
although the graph has no cycle.  `checkCircularIncludes` keeps
`currentFile` fixed through the recursion yet tests `visited.has(currentFile)`
after adding `currentFile` at the first level, so any include chain of
depth ≥ 2 is flagged circular; the cloned stack-set never prevents it. -/
theorem c1_code_bug_diamond :
    (analyzeDocument diamondFs diamondContent 10 "src" "w" "w/src/a.html"
          "<!--#include virtual=\"b.html\" -->\n<!--#include virtual=\"c.html\" -->").map
        Diag.code =
      ["circular-include", "circular-include"] := rfl

/-! ## Claim C3 — no depth bound, no ResolutionTooDeep -/

/-- Names of a 52-file include chain `f0 → f1 → … → f51`. -/
def chainName (i : Nat) : String := "w/src/f" ++ toString i ++ ".html"

/-- The chain file system: all 52 files exist. -/
def chainFs : String → Bool := fun p =>
  (List.range 52).any fun i => decide (p = chainName i)

/-- The chain contents: each file includes the next, the last is plain. -/
def chainContent : String → Option String := fun p =>
  (List.range 52).findSome? fun i =>
    if p = chainName i then
      some
        (if i < 51 then
          "<!--#include virtual=\"f" ++ toString (i + 1) ++ ".html\" -->"
        else "end")
    else none

/-- Counterexample to claim C3: an include chain 52 files deep — beyond the
claimed depth bound of 50 — is reported as `circular-include`, not as a
`ResolutionTooDeep` finding; no depth bound exists in the code. -/
theorem c3_counterexample :
    (analyzeDocument chainFs chainContent 100 "src" "w" (chainName 0)
          "<!--#include virtual=\"f1.html\" -->").map Diag.code =
      ["circular-include"] := rfl

/-- Claim C3 as amended: the traversal has no configurable depth bound and
there is no `ResolutionTooDeep` finding kind at all — every finding carries
one of the seven codes the source constructs, none of which is a
too-deep kind.  (Termination comes from the visited check, which fires at
any recursion depth beyond the first.) -/
theorem c3_no_resolution_too_deep (fs : String → Bool)
    (content : String → Option String) (fuel : Nat)
    (src root fileName text : String) (d : Diag)
    (hd : d ∈ analyzeDocument fs content fuel src root fileName text) :
    d.code ∈ allowedCodes ∧ d.code ≠ "resolution-too-deep" := by
  have h := analyzeDocument_codes fs content fuel src root fileName text d hd
  refine ⟨h, ?_⟩
  simp only [allowedCodes, List.mem_cons, List.not_mem_nil, or_false] at h
  rcases h with h | h | h | h | h | h | h <;> simp [h]

/-- Witness for the amended C3: a concrete missing-include finding is among
the seven kinds and is not `resolution-too-deep`. -/
theorem c3_no_resolution_too_deep_witness :
    (⟨0, 0, 33, 0, "Include file not found: x.html", "include-not-found",
        some "Create directory and include file: w/src/x.html"⟩ : Diag) ∈
        analyzeDocument (fun _ => false) (fun _ => none) 1 "src" "w"
          "w/src/p.html" "<!--#include virtual=\"x.html\" -->" ∧
      ((⟨0, 0, 33, 0, "Include file not found: x.html", "include-not-found",
          some "Create directory and include file: w/src/x.html"⟩ :
            Diag).code ∈ allowedCodes ∧
        (⟨0, 0, 33, 0, "Include file not found: x.html", "include-not-found",
            some "Create directory and include file: w/src/x.html"⟩ :
              Diag).code ≠ "resolution-too-deep") :=
  ⟨by decide,
   c3_no_resolution_too_deep (fun _ => false) (fun _ => none) 1 "src" "w"
     "w/src/p.html" "<!--#include virtual=\"x.html\" -->" _ (by decide)⟩

/-! ## Claim C6 — slot round trip -/

/-- C6 file system: the parent layout exists. -/
def c6Fs : String → Bool := fun p => decide (p = "w/src/layouts/base.html")

/-- C6 contents: the parent declares slots `title` and `content`. -/
def c6Content : String → Option String := fun p =>
  if p = "w/src/layouts/base.html" then
    some "<slot name=\"title\"></slot>\n<slot name=\"content\"></slot>"
  else none

/-- C6 child: extends the parent and uses slots `content` and `sidebar`. -/
def c6ChildText : String :=
  "<template extends=\"base.html\">\n<template slot=\"content\"></template>\n<template slot=\"sidebar\"></template>"

/-- C6 case-sensitivity child: uses `Content` (capital C). -/
def c6CaseChildText : String :=
  "<template extends=\"base.html\">\n<template slot=\"Content\"></template>"

/-- Claim C6: against declared slots `{title, content}`, a `sidebar` usage
yields exactly one warning-severity `undefined-slot` finding carrying the
full declared-slot list as suggestion, a `content` usage yields none, and
matching is case-sensitive exact string equality (a `Content` usage is
flagged); the canonical child document produces exactly the one `sidebar`
finding. -/
theorem c6_slot_round_trip :
    (∀ (i : Nat) (m : RMatch), m.caps = ["sidebar".toList] →
        slotMatchDiags ["title", "content"] i m =
          [{ line := i, startChar := m.start, endChar := m.start + m.len,
             severity := 1,
             message := "Slot " ++ squote ++ "sidebar" ++ squote ++
               " is not defined in the extended template",
             code := "undefined-slot",
             related := some "Available slots: title, content" }]) ∧
    (∀ (i : Nat) (m : RMatch), m.caps = ["content".toList] →
        slotMatchDiags ["title", "content"] i m = []) ∧
    analyzeSlots c6Fs c6Content "src" "w" c6ChildText
        (splitOnNl c6ChildText.toList) =
      [{ line := 2, startChar := 0, endChar := 25, severity := 1,
         message := "Slot " ++ squote ++ "sidebar" ++ squote ++
           " is not defined in the extended template",
         code := "undefined-slot",
         related := some "Available slots: title, content" }] ∧
    analyzeSlots c6Fs c6Content "src" "w" c6CaseChildText
        (splitOnNl c6CaseChildText.toList) =
      [{ line := 1, startChar := 0, endChar := 25, severity := 1,
         message := "Slot " ++ squote ++ "Content" ++ squote ++
           " is not defined in the extended template",
         code := "undefined-slot",
         related := some "Available slots: title, content" }] := by
  refine ⟨?_, ?_, rfl, rfl⟩
  · intro i m h
    simp only [slotMatchDiags]
    rw [h]
    rfl
  · intro i m h
    simp only [slotMatchDiags]
    rw [h]
    rfl

/-- Witness for C6: the general slot facts applied at concrete matches. -/
theorem c6_slot_round_trip_witness :
    slotMatchDiags ["title", "content"] 2 ⟨0, 25, ["sidebar".toList]⟩ =
        [{ line := 2, startChar := 0, endChar := 25, severity := 1,
           message := "Slot " ++ squote ++ "sidebar" ++ squote ++
             " is not defined in the extended template",
           code := "undefined-slot",
           related := some "Available slots: title, content" }] ∧
      slotMatchDiags ["title", "content"] 1 ⟨0, 25, ["content".toList]⟩ =
        [] :=
  ⟨c6_slot_round_trip.1 2 ⟨0, 25, ["sidebar".toList]⟩ rfl,
   c6_slot_round_trip.2.1 1 ⟨0, 25, ["content".toList]⟩ rfl⟩

/-! ## Claim C7 — finding order -/

/-- The stage priority the claim describes:
`Include < Template < Slot < Syntax`. -/
def claimStagePrio (c : String) : Nat :=
  if c = "include-not-found" ∨ c = "circular-include" then 0
  else if c = "template-not-found" then 1
  else if c = "undefined-slot" then 2
  else 3

/-- The ordering the claim describes: ascending line, then ascending
column, then stage priority. -/
def claimOrderLE (a b : Diag) : Bool :=
  decide (a.line < b.line) ||
    (decide (a.line = b.line) &&
      (decide (a.startChar < b.startChar) ||
        (decide (a.startChar = b.startChar) &&
          decide (claimStagePrio a.code ≤ claimStagePrio b.code))))

/-- Is the list sorted under `le`? -/
def isSortedBy (le : Diag → Diag → Bool) : List Diag → Bool
  | [] => true
  | [_] => true
  | a :: b :: rest => le a b && isSortedBy le (b :: rest)

/-- C7 document: a template issue on line 0 and an include issue on
line 1. -/
def c7Text : String :=
  "<template extends=\"nope.html\">\n<!--#include virtual=\"missing.html\" -->"

/-- Counterexample to claim C7: the produced findings list is NOT sorted by
(line, column, stage priority) — the include finding of line 1 precedes the
template and syntax findings of line 0, because stages are concatenated
whole. -/
theorem c7_counterexample :
    isSortedBy claimOrderLE
        (analyzeDocument (fun _ => false) (fun _ => none) 10 "src" "w"
          "w/src/p.html" c7Text) =
      false := rfl

/-- Claim C7 as amended: the report is ordered stage-major — all include
findings, then all template findings, then all slot findings, then all
syntax findings — and within each stage findings are in ascending line
order. -/
theorem c7_stage_major_order (fs : String → Bool)
    (content : String → Option String) (fuel : Nat)
    (src root fileName text : String) :
    analyzeDocument fs content fuel src root fileName text =
        analyzeIncludes fs content fuel src root fileName
            (splitOnNl text.toList) ++
          analyzeTemplates fs src root (splitOnNl text.toList) ++
          analyzeSlots fs content src root text (splitOnNl text.toList) ++
          analyzeSyntax (splitOnNl text.toList) ∧
      List.Pairwise (fun a b : Diag => a.line ≤ b.line)
        (analyzeIncludes fs content fuel src root fileName
          (splitOnNl text.toList)) ∧
      List.Pairwise (fun a b : Diag => a.line ≤ b.line)
        (analyzeTemplates fs src root (splitOnNl text.toList)) ∧
      List.Pairwise (fun a b : Diag => a.line ≤ b.line)
        (analyzeSlots fs content src root text (splitOnNl text.toList)) ∧
      List.Pairwise (fun a b : Diag => a.line ≤ b.line)
        (analyzeSyntax (splitOnNl text.toList)) :=
  ⟨rfl,
   (analyzeIncludesAux_props fs content fuel src root fileName
       (splitOnNl text.toList) 0).2,
   (analyzeTemplatesAux_props fs src root (splitOnNl text.toList) 0).2,
   analyzeSlots_pairwise fs content src root text (splitOnNl text.toList),
   (analyzeSyntaxAux_props (splitOnNl text.toList) 0).2⟩

/-! ## Claim C8 — later extends occurrences -/

/-- C8 file system: layouts `one.html` and `two.html` exist. -/
def c8Fs : String → Bool := fun p =>
  decide (p = "w/src/layouts/one.html") ||
    decide (p = "w/src/layouts/two.html")

/-- C8 contents: `one.html` declares slot `alpha`, `two.html` declares slot
`beta`. -/
def c8Content : String → Option String := fun p =>
  if p = "w/src/layouts/one.html" then some "<slot name=\"alpha\"></slot>"
  else if p = "w/src/layouts/two.html" then some "<slot name=\"beta\"></slot>"
  else none

/-- C8 document with two `extends`: the first resolves, the second does
not. -/
def c8TwoExtendsText : String :=
  "<template extends=\"one.html\">\n<template extends=\"zzz.html\">"

/-- C8 document whose two `extends` both resolve to different parents; the
child uses slot `beta`, declared only by the SECOND parent. -/
def c8SlotText : String :=
  "<template extends=\"one.html\">\n<template extends=\"two.html\">\n<template slot=\"beta\"></template>"

/-- Counterexample to claim C8: a second `extends` occurrence produces no
`RedundantTemplateExtends` finding — the full output for a document whose
second `extends` does not resolve is a `template-not-found` for that
occurrence plus two informational unclosed-template syntax findings. -/
theorem c8_counterexample :
    (analyzeDocument c8Fs c8Content 10 "src" "w" "w/src/p.html"
          c8TwoExtendsText).map (fun d => (d.line, d.code)) =
      [(1, "template-not-found"), (0, "unclosed-template"),
        (1, "unclosed-template")] := rfl

/-- Claim C8 as amended: the first `extends` occurrence is the one used for
slot comparison (the child's `beta` usage is checked against the FIRST
parent's slots and flagged with suggestion `alpha`); later occurrences are
each existence-checked like the first and produce no
`RedundantTemplateExtends` finding — no finding of any analysis carries
such a kind — and analysis completes normally. -/
theorem c8_first_extends_authoritative :
    analyzeSlots c8Fs c8Content "src" "w" c8SlotText
        (splitOnNl c8SlotText.toList) =
      [{ line := 2, startChar := 0, endChar := 22, severity := 1,
         message := "Slot " ++ squote ++ "beta" ++ squote ++
           " is not defined in the extended template",
         code := "undefined-slot",
         related := some "Available slots: alpha" }] ∧
    ∀ (fs : String → Bool) (content : String → Option String) (fuel : Nat)
      (src root fileName text : String) (d : Diag),
      d ∈ analyzeDocument fs content fuel src root fileName text →
      d.code ≠ "redundant-template-extends" := by
  refine ⟨rfl, ?_⟩
  intro fs content fuel src root fileName text d hd
  have h := analyzeDocument_codes fs content fuel src root fileName text d hd
  simp only [allowedCodes, List.mem_cons, List.not_mem_nil, or_false] at h
  rcases h with h | h | h | h | h | h | h <;> simp [h]

/-- Witness for the amended C8: the concrete `template-not-found` finding
of the two-extends document is not a redundancy finding. -/
theorem c8_first_extends_authoritative_witness :
    (⟨1, 0, 29, 0, "Template not found: zzz.html", "template-not-found",
        none⟩ : Diag) ∈
        analyzeDocument c8Fs c8Content 10 "src" "w" "w/src/p.html"
          c8TwoExtendsText ∧
      (⟨1, 0, 29, 0, "Template not found: zzz.html", "template-not-found",
          none⟩ : Diag).code ≠ "redundant-template-extends" :=
  ⟨by decide,
   c8_first_extends_authoritative.2 c8Fs c8Content 10 "src" "w"
     "w/src/p.html" c8TwoExtendsText _ (by decide)⟩

/-! ## Claim C10 — single-quoted include directives are silently ignored -/

/-- A line holding one include directive whose path is delimited by single
quotes: `<!--#include virtual='…' -->`. -/
def c10Line (p : List Char) : List Char :=
  "<!--#include virtual=".toList ++ '\'' :: (p ++ '\'' :: " -->".toList)

/-- A pattern starting with a literal cannot match the empty string. -/
theorem mp_nil_str (c0 : Char) (l : List Char) (ps : List RPiece) :
    matchPieces (.str (c0 :: l) :: ps) [] = none := rfl

/-- A pattern starting with a literal fails on a string whose first
character differs. -/
theorem mp_cons_str_ne (c0 : Char) (l : List Char) (ps : List RPiece)
    (c : Char) (s : List Char) (hc : c ≠ c0) :
    matchPieces (.str (c0 :: l) :: ps) (c :: s) = none := by
  have h1 : stripPfx (c0 :: l) (c :: s) = none := by
    simp only [stripPfx, if_neg (fun h : c0 = c => hc h.symm)]
  simp only [matchPieces, h1]

/-- Scanning a string that never contains the pattern's first literal
character finds no match. -/
theorem findFromAux_none_of_no_head (c0 : Char) (l : List Char)
    (ps : List RPiece) :
    ∀ (s : List Char) (i : Nat), (∀ x ∈ s, x ≠ c0) →
      findFromAux (.str (c0 :: l) :: ps) s i = none := by
  intro s
  induction s with
  | nil => intro i _; simp only [findFromAux, mp_nil_str]
  | cons c rest ih =>
    intro i hall
    simp only [findFromAux,
      mp_cons_str_ne c0 l ps c rest (hall c (List.mem_cons_self c rest))]
    exact ih (i + 1) (fun x hx => hall x (List.mem_cons_of_mem c hx))

/-- One scanning step past a failed match position. -/
theorem findFromAux_cons_none (ps : List RPiece) (c : Char) (s : List Char)
    (i : Nat) (h : matchPieces ps (c :: s) = none) :
    findFromAux ps (c :: s) i = findFromAux ps s (i + 1) := by
  simp only [findFromAux, h]

/-- Scanning skips a whole prefix at whose (nonempty) suffix positions the
pattern fails. -/
theorem findFromAux_append (ps : List RPiece) :
    ∀ (u v : List Char) (i : Nat),
      (∀ w, w <:+ u → w ≠ [] → matchPieces ps (w ++ v) = none) →
      findFromAux ps (u ++ v) i = findFromAux ps v (i + u.length) := by
  intro u
  induction u with
  | nil => intro v i _; simp
  | cons c u ih =>
    intro v i h
    rw [List.cons_append,
      findFromAux_cons_none ps c (u ++ v) i
        (h (c :: u) List.suffix_rfl (List.cons_ne_nil c u)),
      ih v (i + 1)
        (fun w hw hne => h w (hw.trans (List.suffix_cons c u)) hne)]
    have harith : i + 1 + u.length = i + (c :: u).length := by
      simp [List.length_cons]
      omega
    rw [harith]

/-- The first `exec` position of a `/g` loop failing kills the loop. -/
theorem execAll_none (ps : List RPiece) (l : List Char)
    (h : findFromAux ps l 0 = none) : execAll ps l = [] := by
  simp only [execAll, execAllAux, List.drop_zero, h]

/-- No character of a single-quoted include line is `<` except the leading
one. -/
theorem c10Line_tail_no_lt (p : List Char) (hp : '<' ∉ p) :
    ∀ x ∈ ("!--#include virtual=".toList ++
        '\'' :: (p ++ '\'' :: " -->".toList)), x ≠ '<' := by
  intro x hx e
  subst e
  rcases List.mem_append.1 hx with h | h
  · exact absurd h (by decide)
  · rcases List.mem_cons.1 h with h | h
    · exact absurd h (by decide)
    · rcases List.mem_append.1 h with h | h
      · exact hp h
      · rcases List.mem_cons.1 h with h | h
        · exact absurd h (by decide)
        · exact absurd h (by decide)

/-- Scanning a single-quoted include line with a pattern that starts with a
`<`-literal and fails at position 0 finds nothing anywhere. -/
theorem findFromAux_c10 (l0 : List Char) (ps0 : List RPiece) (p : List Char)
    (hp : '<' ∉ p)
    (h0 : matchPieces (.str ('<' :: l0) :: ps0) (c10Line p) = none) :
    ∀ i, findFromAux (.str ('<' :: l0) :: ps0) (c10Line p) i = none := by
  intro i
  have hline :
      c10Line p =
        '<' ::
          ("!--#include virtual=".toList ++
            '\'' :: (p ++ '\'' :: " -->".toList)) := rfl
  rw [hline] at h0 ⊢
  rw [findFromAux_cons_none _ _ _ _ h0]
  exact
    findFromAux_none_of_no_head '<' l0 ps0 _ (i + 1)
      (fun x hx => c10Line_tail_no_lt p hp x (by simpa using hx))

/-- `split('\n')` of newline-free text is the single whole line. -/
theorem splitOnNl_no_nl : ∀ (l : List Char), '\n' ∉ l → splitOnNl l = [l] := by
  intro l
  induction l with
  | nil => intro _; rfl
  | cons c rest ih =>
    intro h
    have hc : c ≠ '\n' := fun e => h (e ▸ List.mem_cons_self c rest)
    simp only [splitOnNl, if_neg hc,
      ih (fun hx => h (List.mem_cons_of_mem c hx))]

/-- Claim C10: a single-quoted include directive (path free of `<` and of
newlines) produces no analysis output at all — no include finding, no
template finding, no slot finding, and no syntax finding: the include
scanner requires double quotes, and the malformed-include check's negative
lookahead accepts any `virtual=`/`file=` prefix whatever delimiter
follows. -/
theorem c10_single_quote_ignored (p : List Char) (fs : String → Bool)
    (content : String → Option String) (fuel : Nat)
    (src root fileName : String) (hlt : '<' ∉ p) (hnl : '\n' ∉ p) :
    analyzeDocument fs content fuel src root fileName
        (String.mk (c10Line p)) = [] := by
  have hInc : ∀ i, findFromAux includePieces (c10Line p) i = none :=
    findFromAux_c10 _ _ p hlt rfl
  have hTpl : ∀ i, findFromAux templateExtendsPieces (c10Line p) i = none :=
    findFromAux_c10 _ _ p hlt rfl
  have hMal : ∀ i, findFromAux malformedIncludePieces (c10Line p) i = none :=
    findFromAux_c10 _ _ p hlt rfl
  have hUncl : ∀ i, findFromAux unclosedTemplatePieces (c10Line p) i = none :=
    findFromAux_c10 _ _ p hlt rfl
  have hInv : ∀ i, findFromAux invalidCharsPieces (c10Line p) i = none :=
    findFromAux_c10 _ _ p hlt rfl
  have hsplit : splitOnNl (String.mk (c10Line p)).toList = [c10Line p] := by
    have hmk : (String.mk (c10Line p)).toList = c10Line p := rfl
    rw [hmk]
    refine splitOnNl_no_nl _ (fun hx => ?_)
    rcases List.mem_append.1 hx with h | h
    · exact absurd h (by decide)
    · rcases List.mem_cons.1 h with h | h
      · exact absurd h (by decide)
      · rcases List.mem_append.1 h with h | h
        · exact hnl h
        · rcases List.mem_cons.1 h with h | h
          · exact absurd h (by decide)
          · exact absurd h (by decide)
  unfold analyzeDocument
  rw [hsplit]
  have e1 : execAll includePieces (c10Line p) = [] := execAll_none _ _ (hInc 0)
  have e2 : execAll templateExtendsPieces (c10Line p) = [] :=
    execAll_none _ _ (hTpl 0)
  have s1 :
      analyzeIncludes fs content fuel src root fileName [c10Line p] = [] := by
    simp [analyzeIncludes, analyzeIncludesAux, e1]
  have s2 : analyzeTemplates fs src root [c10Line p] = [] := by
    simp [analyzeTemplates, analyzeTemplatesAux, e2]
  have s3 :
      analyzeSlots fs content src root (String.mk (c10Line p))
          [c10Line p] = [] := by
    have hfe :
        findExtendedTemplate fs src root (String.mk (c10Line p)) = none := by
      simp [findExtendedTemplate, firstMatch, hTpl 0]
    simp [analyzeSlots, hfe]
  have s4 : analyzeSyntax [c10Line p] = [] := by
    simp [analyzeSyntax, analyzeSyntaxAux, syntaxLineDiags, firstMatch,
      hMal 0, hUncl 0, hInv 0]
  simp [s1, s2, s3, s4]

/-- Witness for C10: the claim's own example path `x.html`. -/
theorem c10_single_quote_ignored_witness :
    ('<' ∉ "x.html".toList ∧ '\n' ∉ "x.html".toList) ∧
      analyzeDocument (fun _ => false) (fun _ => none) 1 "src" "w"
          "w/src/p.html" (String.mk (c10Line "x.html".toList)) = [] :=
  ⟨by decide,
   c10_single_quote_ignored "x.html".toList (fun _ => false) (fun _ => none)
     1 "src" "w" "w/src/p.html" (by decide) (by decide)⟩

end Unify
